import Mathlib

/-!
Verification development for the libb-log logging pipeline.

The definitions below are a shallow embedding of the python sources:
src/log/_backend.py (LoguruBackend, InterceptHandler, module helpers),
src/log/_logger.py (Logger facade), src/log/sinks.py (delivery adapters),
src/log/setup.py (patchers, resolve_ip), src/log/filters.py and
src/log/handlers.py (BufferedColoredSMTPHandler).

The repository delegates sink registration and event dispatch to the
loguru library.  Those engine operations (add / remove / per-sink level
filtering) are embedded here following the documented loguru behaviour
that the source code calls into: add returns a fresh integer handler id,
remove of an unknown id raises ValueError, and an event is delivered to
every registered handler whose level threshold is at most the event
level, in registration order.

Machine-level details that carry no information for the verified
properties (actual SMTP traffic, MIME encoding, ANSI colors) are
abstracted into outcome parameters: each external transport call is a
SendOutcome argument saying whether that call returned or raised.
-/

set_option autoImplicit false

namespace LibbLog

/-- Severity table of the engine: level name and numeric value
(matching the python logging numbers used throughout the source). -/
def loguruLevels : List (String × Nat) :=
  [("TRACE", 5), ("DEBUG", 10), ("INFO", 20), ("SUCCESS", 25),
   ("WARNING", 30), ("ERROR", 40), ("CRITICAL", 50)]

/-- Lookup of a level name in the engine level table, as done by
loguru.level(name); returns none where the python call raises ValueError. -/
def levelNo? (name : String) : Option Nat :=
  (loguruLevels.find? (fun p => p.1 == name)).map Prod.snd

/-- Numeric value of logging.ERROR, the failure threshold used by the
preamble patcher in setup.py. -/
def errorLevelNo : Nat := 40

/-- Outcome of one call into an external transport (mandrill api send,
smtp session, dns lookup): the call either returns or raises. -/
inductive SendOutcome
  | ok
  | raises (msg : String)
deriving DecidableEq, Repr

/-- Result of invoking one delivery adapter on one event: the adapter
either returns normally (warned = true when it caught an internal
exception and reported it on the warning channel) or lets an exception
propagate out of its own boundary. -/
inductive AdapterResult
  | returned (warned : Bool)
  | propagated (msg : String)
deriving DecidableEq, Repr

/-- Embedding of sinks.MandrillSink: constructor state.  apiPresent is
false when the mailchimp library is missing (self.api is None). -/
structure MandrillSink where
  apiPresent : Bool
  fromaddr : String
  toaddrs : List String
deriving DecidableEq, Repr

/-- Embedding of MandrillSink.__call__ (sinks.py lines 88-109): when the
api is absent the call returns immediately; otherwise the api send is
attempted inside try/except Exception, and a raising send is caught and
reported as a warning.  The send outcome is the parameter. -/
def MandrillSink.call (s : MandrillSink) (send : SendOutcome) : AdapterResult :=
  if s.apiPresent then
    match send with
    | .ok => .returned false
    | .raises _ => .returned true
  else
    .returned false

/-- Embedding of sinks.SMTPSink: constructor state. -/
structure SMTPSink where
  mailhost : String
  port : Nat
  fromaddr : String
  toaddrs : List String
  ssl : Bool
  starttls : Bool
deriving DecidableEq, Repr

/-- Embedding of SMTPSink.__call__ (sinks.py lines 194-222): the whole
smtp session (connect, login, sendmail, quit) sits inside try/except
Exception; a raising session is caught and reported as a warning. -/
def SMTPSink.call (_s : SMTPSink) (send : SendOutcome) : AdapterResult :=
  match send with
  | .ok => .returned false
  | .raises _ => .returned true

/-- The delivery adapters relevant to the dispatch claims: the console
stream sink registered by setup._add_sinks, and the two mail adapters. -/
inductive Adapter
  | stream
  | mandrill (s : MandrillSink)
  | smtp (s : SMTPSink)
deriving DecidableEq, Repr

/-- Delivery of one event by one adapter, given the outcome of the
external transport call made during that delivery.  A stream write is
local and returns normally. -/
def Adapter.deliver : Adapter → SendOutcome → AdapterResult
  | .stream, _ => .returned false
  | .mandrill s, send => s.call send
  | .smtp s, send => s.call send

/-- One sink registration held by the engine: handler id, minimum level
threshold, and the registered adapter. -/
structure SinkReg where
  id : Nat
  levelno : Nat
  adapter : Adapter
deriving DecidableEq, Repr

/-- Dispatch of one event at level lvl to a registration list, in
registration order, as the loguru engine does: each registration whose
threshold is at most lvl has its adapter invoked; an adapter exception
that escaped the adapter boundary would abort the call (error result),
while normal returns are collected as (id, warned) pairs. -/
def dispatchList : List SinkReg → (Nat → SendOutcome) → Nat → Except String (List (Nat × Bool))
  | [], _, _ => .ok []
  | r :: rest, env, lvl =>
    if r.levelno ≤ lvl then
      match r.adapter.deliver (env r.id) with
      | .propagated m => .error m
      | .returned w =>
        match dispatchList rest env lvl with
        | .error m => .error m
        | .ok tail => .ok ((r.id, w) :: tail)
    else
      dispatchList rest env lvl

/-- Engine state: the next handler id to hand out and the registration
list in registration order. -/
structure Engine where
  nextId : Nat
  sinks : List SinkReg
deriving DecidableEq, Repr

/-- Engine add operation: registers the adapter under a fresh id and
returns the id (loguru Logger.add). -/
def Engine.add (e : Engine) (ad : Adapter) (levelno : Nat) : Engine × Nat :=
  (⟨e.nextId + 1, e.sinks ++ [⟨e.nextId, levelno, ad⟩]⟩, e.nextId)

/-- Engine removal of one handler id (loguru Logger.remove with an id):
removes the handler with that id, and raises ValueError when no handler
has that id. -/
def Engine.removeId (e : Engine) (idv : Nat) : Except String Engine :=
  if e.sinks.any (fun r => r.id = idv) then
    .ok ⟨e.nextId, e.sinks.filter (fun r => r.id ≠ idv)⟩
  else
    .error "ValueError: there is no existing handler with this id"

/-- Engine removal of every handler (loguru Logger.remove with no id). -/
def Engine.removeAll (e : Engine) : Engine :=
  ⟨e.nextId, []⟩

/-- Embedding of _backend.LoguruBackend state: the engine it delegates
to and the id list it tracks in self._sink_ids. -/
structure LoguruBackend where
  engine : Engine
  sinkIds : List Nat
deriving DecidableEq, Repr

/-- Embedding of LoguruBackend.reset: removes all engine handlers and
clears the tracked id list. -/
def LoguruBackend.reset (b : LoguruBackend) : LoguruBackend :=
  ⟨b.engine.removeAll, []⟩

/-- Embedding of LoguruBackend.add_sink: delegates to the engine add and
appends the returned id to the tracked list. -/
def LoguruBackend.add_sink (b : LoguruBackend) (ad : Adapter) (levelno : Nat) :
    LoguruBackend × Nat :=
  let p := b.engine.add ad levelno
  (⟨p.1, b.sinkIds ++ [p.2]⟩, p.2)

/-- Embedding of LoguruBackend.remove_sink (_backend.py lines 94-98):
calls the engine removal unguarded (so an unknown id raises ValueError
out of the call), then drops the id from the tracked list only when
present there. -/
def LoguruBackend.remove_sink (b : LoguruBackend) (idv : Nat) : Except String LoguruBackend :=
  match b.engine.removeId idv with
  | .error m => .error m
  | .ok eng =>
    .ok ⟨eng, if b.sinkIds.contains idv then b.sinkIds.erase idv else b.sinkIds⟩

/-- One log call on the backend at numeric level lvl: the engine
dispatches the event to every registration whose threshold is satisfied,
in registration order. -/
def LoguruBackend.logAt (b : LoguruBackend) (env : Nat → SendOutcome) (lvl : Nat) :
    Except String (List (Nat × Bool)) :=
  dispatchList b.engine.sinks env lvl

/-- Embedding of the preamble status update inside preamble_patcher
(setup.py lines 194-201): an event at or above logging.ERROR flips the
mutable session status to failed, and the status written after the
check is injected into the event extras.  The function returns the new
session status, which is also the injected cmd_status extra. -/
def preambleStep (status : String) (levelno : Nat) : String :=
  if errorLevelNo ≤ levelno then "failed" else status

/-- Status injected into each event of a session, in order: the session
starts with status succeeded (preamble_state initialisation in
setup.py line 192) and each event runs preambleStep. -/
def preambleStatusesFrom (status : String) : List Nat → List String
  | [] => []
  | lvl :: rest =>
    let s := preambleStep status lvl
    s :: preambleStatusesFrom s rest

/-- Statuses injected over one configuration session. -/
def preambleStatuses (levels : List Nat) : List String :=
  preambleStatusesFrom "succeeded" levels

/-- Kind of python exception raised by an external call, split the way
the source except clauses split them: the OSError family (which includes
TimeoutError and the socket errors raised by gethostbyaddr) against any
other Exception. -/
inductive PyExcKind
  | osError
  | otherExc
deriving DecidableEq, Repr

/-- Result of a python call that may raise. -/
abbrev PyResult (α : Type) := Except PyExcKind α

/-- Embedding of resolve_ip inside the web patcher (setup.py lines
210-224).  The supplied address resolver outcome and the reverse dns
lookup are parameters.  Source structure: the whole body sits in
try/except Exception returning the empty string; inside, a falsy
resolver value yields the empty string; a reverse lookup guarded by
except (TimeoutError, OSError) falls back to the raw address; an
exception of any other kind reaches the outer handler.  The
setdefaulttimeout bracket around the lookup does not change the
returned value and is not represented. -/
def resolve_ip (ipFn : PyResult String) (dns : String → PyResult String) : String :=
  match ipFn with
  | .error _ => ""
  | .ok raw =>
    if raw = "" then ""
    else
      match dns raw with
      | .ok hostname => hostname
      | .error .osError => raw
      | .error .otherExc => ""

/-- Embedding of the ip enrichment line of web_patcher (setup.py line
227): the injected ip extra is the resolve_ip value. -/
def webPatcherIp (ipFn : PyResult String) (dns : String → PyResult String) : String :=
  resolve_ip ipFn dns

/-- A stdlib log record as far as the buffered mail handler observes it:
numeric level and message payload. -/
structure LogRecord where
  levelno : Nat
  msg : String
deriving DecidableEq, Repr

/-- One outbound digest message produced by a flush of the buffered mail
handler: the record whose subject line the digest carries (the last
buffered record, from _build_html_msg(self.buffer[-1])) and the full
buffered record list that the body formats. -/
structure Digest where
  subjectRec : LogRecord
  records : List LogRecord
deriving DecidableEq, Repr

/-- Embedding of handlers.BufferedColoredSMTPHandler state: capacity
bound, flush level (stored but unused by shouldFlush), and the pending
record buffer. -/
structure BufferedSMTP where
  capacity : Nat
  flushLevel : Nat
  buffer : List LogRecord
deriving DecidableEq, Repr

/-- Embedding of BufferedColoredSMTPHandler.shouldFlush (handlers.py
lines 310-313): true when the buffered count has reached capacity; the
record argument of the source is unused. -/
def BufferedSMTP.shouldFlush (h : BufferedSMTP) : Bool :=
  h.capacity ≤ h.buffer.length

/-- Last element of a nonempty record list, given head and tail: the
python indexing self.buffer[-1] used to pick the subject record. -/
def lastRec (first : LogRecord) : List LogRecord → LogRecord
  | [] => first
  | b :: m => lastRec b m

/-- Result of one flush call: the handler state after the call, the
digest actually sent (none when nothing was sent), and the records whose
individual delivery failure was reported through handleError. -/
structure FlushResult where
  state : BufferedSMTP
  digest : Option Digest
  reported : List LogRecord
deriving DecidableEq, Repr

/-- Embedding of BufferedColoredSMTPHandler.flush (handlers.py lines
325-345).  An empty buffer returns immediately.  Otherwise the digest is
built from the buffer (subject from the last record) and the send is
attempted: on success the buffer is cleared; on an exception each still
buffered record is passed to handleError and the buffer is cleared.  The
outcome of the build-and-send try block is the send parameter. -/
def BufferedSMTP.flush (h : BufferedSMTP) (send : SendOutcome) : FlushResult :=
  match h.buffer with
  | [] => ⟨h, none, []⟩
  | first :: rest =>
    match send with
    | .ok =>
      ⟨{ h with buffer := [] },
       some ⟨lastRec first rest, first :: rest⟩, []⟩
    | .raises _ =>
      ⟨{ h with buffer := [] }, none, first :: rest⟩

/-- Result of one emit call: state, digest sent by a triggered flush,
records reported failed by a triggered flush, and whether flush was
invoked at all. -/
structure EmitResult where
  state : BufferedSMTP
  digest : Option Digest
  reported : List LogRecord
  flushed : Bool
deriving DecidableEq, Repr

/-- Embedding of BufferedColoredSMTPHandler.emit (handlers.py lines
315-323): the record is appended to the buffer, then flush runs exactly
when shouldFlush holds on the grown buffer. -/
def BufferedSMTP.emit (h : BufferedSMTP) (r : LogRecord) (send : SendOutcome) : EmitResult :=
  let h2 : BufferedSMTP := { h with buffer := h.buffer ++ [r] }
  if h2.shouldFlush then
    let f := h2.flush send
    ⟨f.state, f.digest, f.reported, true⟩
  else
    ⟨h2, none, [], false⟩

/-- Embedding of BufferedColoredSMTPHandler.close (handlers.py lines
347-351): close always calls flush before closing the transport. -/
def BufferedSMTP.close (h : BufferedSMTP) (send : SendOutcome) : FlushResult :=
  h.flush send

/-- Trace of a sequence of emit calls: final state, digests sent in
order, reported failures in order, and the number of flush invocations
triggered by the emits. -/
structure EmitTrace where
  state : BufferedSMTP
  digests : List Digest
  reported : List LogRecord
  flushCalls : Nat
deriving DecidableEq, Repr

/-- Runs a list of emit calls in order, pairing each record with the
outcome of the send a triggered flush would attempt. -/
def runEmits (h : BufferedSMTP) : List (LogRecord × SendOutcome) → EmitTrace
  | [] => ⟨h, [], [], 0⟩
  | (r, send) :: rest =>
    let e := h.emit r send
    let t := runEmits e.state rest
    ⟨t.state, e.digest.toList ++ t.digests, e.reported ++ t.reported,
     (if e.flushed then 1 else 0) + t.flushCalls⟩

/-- A stdlib logging record as seen by the intercept handler: logger
name, level name, numeric level, message, and whether exception info is
attached. -/
structure StdRecord where
  name : String
  levelname : String
  levelno : Nat
  msg : String
  excInfo : Bool
deriving DecidableEq, Repr

/-- Level argument forwarded to the engine log call: either a level name
the engine recognises, or the raw numeric level. -/
inductive LevelSpec
  | byName (s : String)
  | byNo (n : Nat)
deriving DecidableEq, Repr

/-- One event as it reaches the engine from the bridge: forwarded level,
message, the logger name bound as context, and exception info. -/
structure ForwardedEvent where
  level : LevelSpec
  msg : String
  loggerName : String
  excInfo : Bool
deriving DecidableEq, Repr

/-- Embedding of InterceptHandler.emit (_backend.py lines 23-39): the
level name of the record is looked up in the engine level table
(loguru.level raises ValueError for an unknown name, caught and replaced
by the raw numeric level), then exactly one engine log call is made with
logger_name bound to the record name and the record exception info
forwarded.  The returned list holds the engine log calls made by this
emit.  The stack walk computing the depth option affects only the
reported source location and is not represented. -/
def interceptEmit (r : StdRecord) : List ForwardedEvent :=
  let lvl : LevelSpec :=
    match levelNo? r.levelname with
    | some _ => .byName r.levelname
    | none => .byNo r.levelno
  [⟨lvl, r.msg, r.name, r.excInfo⟩]

/-- Configuration state of one named stdlib logger, the fields touched
by intercept_stdlib. -/
structure StdLoggerState where
  interceptHandlerCount : Nat
  propagate : Bool
  levelno : Nat
deriving DecidableEq, Repr

/-- Embedding of the named-logger branch of intercept_stdlib
(_backend.py lines 151-156): the handler list is replaced by a single
intercept handler, propagation is disabled, and the logger level is set
to DEBUG so that all level filtering is left to the engine sinks. -/
def interceptStdlibNamed (_lg : StdLoggerState) : StdLoggerState :=
  ⟨1, false, 10⟩

/-- An ordered string-keyed python dict with string values, as the
facade context mapping.  Keys are unique in every dict built by the
operations below. -/
abbrev Ctx := List (String × String)

/-- Key list of a context dict. -/
def ctxKeys (d : Ctx) : List String :=
  d.map Prod.fst

/-- Python dict item assignment d[k] = v: an existing key keeps its
position and gets the new value, a new key is appended at the end.
Stated recursively on the item list; with the unique keys that every
dict reachable here has, replacing the first occurrence of the key is
exactly the python dict slot update. -/
def dictInsert : Ctx → String → String → Ctx
  | [], k, v => [(k, v)]
  | p :: rest, k, v => if p.1 = k then (k, v) :: rest else p :: dictInsert rest k v

/-- Python double-splat dict merge, the expression
new_context = dict-of(self._context items, then kwargs items) in
Logger.bind: items of the left dict in order, updated and extended by
the items of the right dict in order, right side winning on key
collisions. -/
def dictMerge (a b : Ctx) : Ctx :=
  b.foldl (fun d p => dictInsert d p.1 p.2) a

/-- Python dict lookup d.get(k): value of the first (hence, with unique
keys, the only) item with the key. -/
def dictGet? : Ctx → String → Option String
  | [], _ => none
  | p :: rest, k => if p.1 = k then some p.2 else dictGet? rest k

/-- Embedding of the _logger.Logger facade state: optional name and
bound context mapping. -/
structure Logger where
  name : Option String
  context : Ctx
deriving DecidableEq, Repr

/-- Constructor call Logger(name=value, **context) as used inside bind:
python raises TypeError when the splatted context carries a key that
collides with an explicitly bound parameter of __init__ (name, or the
already bound self); otherwise the fields are stored as given. -/
def loggerInit (name : Option String) (context : Ctx) : Except String Logger :=
  if context.any (fun p => p.1 = "name" ∨ p.1 = "self") then
    .error "TypeError: got multiple values for argument"
  else
    .ok ⟨name, context⟩

/-- Embedding of Logger.bind (_logger.py lines 21-24): merges the bound
context with the keyword mapping, keyword side winning, and constructs a
new Logger with the unchanged name via Logger(name=self._name,
**new_context).  A kwargs key named self already breaks the bind call
itself; a merged key named name breaks the constructor call. -/
def Logger.bind (lg : Logger) (kwargs : Ctx) : Except String Logger :=
  if kwargs.any (fun p => p.1 = "self") then
    .error "TypeError: got multiple values for argument"
  else
    loggerInit lg.name (dictMerge lg.context kwargs)

/-- One dispatch into the backend as produced by Logger._log
(_logger.py lines 49-58): level name, message, positional args, the
residual keyword args forwarded unchanged, the bound context and name of
the facade, the exception-info flag, and the wrapper depth of 1. -/
structure Dispatch where
  level : String
  msg : String
  args : List String
  kwargs : Ctx
  context : Ctx
  name : Option String
  excInfo : Bool
  depth : Nat
deriving DecidableEq, Repr

/-- Embedding of Logger._log: builds the backend dispatch from the
facade state.  exc_info is a declared parameter of _log, so the kwargs
field holds only the residual keyword arguments. -/
def Logger.logDispatch (lg : Logger) (level msg : String) (args : List String)
    (excInfo : Bool) (kwargs : Ctx) : Dispatch :=
  ⟨level, msg, args, kwargs, lg.context, lg.name, excInfo, 1⟩

/-- Embedding of Logger.error (_logger.py lines 35-36): an ERROR level
_log call with exc_info at its default false. -/
def Logger.errorDispatch (lg : Logger) (msg : String) (args : List String)
    (kwargs : Ctx) : Dispatch :=
  lg.logDispatch "ERROR" msg args false kwargs

/-- Embedding of Logger.exception (_logger.py lines 38-40): an ERROR
level _log call with exc_info forced to true. -/
def Logger.exceptionDispatch (lg : Logger) (msg : String) (args : List String)
    (kwargs : Ctx) : Dispatch :=
  lg.logDispatch "ERROR" msg args true kwargs

/-- Modelled from the claim wording for the refinement comparison: an
ERROR-level log of the same message with exception info enabled
(exc_info=True), i.e. the facade log path invoked at severity ERROR with
the exception flag set. -/
def errorLevelLogWithExcInfoSpec (lg : Logger) (msg : String) (args : List String)
    (kwargs : Ctx) : Dispatch :=
  lg.logDispatch "ERROR" msg args true kwargs

/-! ## Helper lemmas -/

/-- Every adapter in the registry catches its own transport failures:
delivery always returns normally, whatever the transport outcome. -/
theorem adapter_deliver_returned (ad : Adapter) (send : SendOutcome) :
    ∃ w, ad.deliver send = .returned w := by
  cases ad with
  | stream => exact ⟨false, rfl⟩
  | mandrill s =>
    cases hs : s.apiPresent <;> cases send <;>
      simp [Adapter.deliver, MandrillSink.call, hs]
  | smtp s =>
    cases send <;> simp [Adapter.deliver, SMTPSink.call]

/-- Dispatch over a registration list always returns normally, and the
ids delivered to are exactly the registrations whose threshold is
satisfied, in registration order. -/
theorem dispatchList_ok (sinks : List SinkReg) (env : Nat → SendOutcome) (lvl : Nat) :
    ∃ res, dispatchList sinks env lvl = .ok res ∧
      res.map Prod.fst = (sinks.filter (fun r => r.levelno ≤ lvl)).map SinkReg.id := by
  induction sinks with
  | nil => exact ⟨[], rfl, rfl⟩
  | cons r rest ih =>
    obtain ⟨res, hres, hmap⟩ := ih
    by_cases hle : r.levelno ≤ lvl
    · obtain ⟨w, hw⟩ := adapter_deliver_returned r.adapter (env r.id)
      refine ⟨(r.id, w) :: res, ?_, ?_⟩
      · simp [dispatchList, hle, hw, hres]
      · simp [hle, hmap]
    · refine ⟨res, ?_, ?_⟩
      · simp [dispatchList, hle, hres]
      · simp [hle, hmap]

/-! ## Claim theorems -/

/-- C1: any exception raised inside a delivery adapter attempt is caught
at the adapter boundary (the mail adapters always return normally), a
dispatch call therefore returns normally with every threshold-eligible
destination delivered to; concretely, with a mandrill mail sink whose
send always throws followed by a console sink, the log call returns ok,
the mail adapter merely reports a warning, and the console delivery of
the same event still happens. -/
theorem C1_adapter_failure_isolated :
    (∀ (s : MandrillSink) (send : SendOutcome), ∃ w, s.call send = .returned w) ∧
    (∀ (s : SMTPSink) (send : SendOutcome), ∃ w, s.call send = .returned w) ∧
    (∀ (sinks : List SinkReg) (env : Nat → SendOutcome) (lvl : Nat),
      ∃ res, dispatchList sinks env lvl = .ok res ∧
        res.map Prod.fst = (sinks.filter (fun r => r.levelno ≤ lvl)).map SinkReg.id) ∧
    dispatchList
      [⟨1, 40, .mandrill ⟨true, "ops", ["dev"]⟩⟩, ⟨2, 10, .stream⟩]
      (fun _ => .raises "mail api down") 40
      = .ok [(1, true), (2, false)] := by
  refine ⟨?_, ?_, dispatchList_ok, rfl⟩
  · intro s send
    cases hs : s.apiPresent <;> cases send <;> simp [MandrillSink.call, hs]
  · intro s send
    cases send <;> simp [SMTPSink.call]

/-- C2: a log call at level s is delivered to exactly the registered
sinks whose threshold is at most s and to no other; after reset and
add_sink at level L, a call below L delivers to no destination and a
call at exactly L delivers exactly once, to the added sink. -/
theorem C2_threshold_dispatch (b : LoguruBackend) (ad : Adapter)
    (env : Nat → SendOutcome) (L s : Nat) :
    (∃ res, b.logAt env s = .ok res ∧
      ∀ idv : Nat, idv ∈ res.map Prod.fst ↔
        ∃ r ∈ b.engine.sinks, r.id = idv ∧ r.levelno ≤ s) ∧
    (s < L → ((b.reset).add_sink ad L).1.logAt env s = .ok []) ∧
    (∃ w, ((b.reset).add_sink ad L).1.logAt env L
        = .ok [((((b.reset).add_sink ad L).2), w)]) := by
  refine ⟨?_, ?_, ?_⟩
  · obtain ⟨res, hres, hmap⟩ := dispatchList_ok b.engine.sinks env s
    refine ⟨res, hres, ?_⟩
    intro idv
    rw [hmap]
    simp only [List.mem_map, List.mem_filter]
    constructor
    · rintro ⟨r, ⟨hr, hlev⟩, hid⟩
      exact ⟨r, hr, hid, by simpa using hlev⟩
    · rintro ⟨r, hr, hid, hlev⟩
      exact ⟨r, ⟨hr, by simpa using hlev⟩, hid⟩
  · intro hlt
    have hnot : ¬ (L ≤ s) := by omega
    simp [LoguruBackend.reset, LoguruBackend.add_sink, Engine.removeAll, Engine.add,
      LoguruBackend.logAt, dispatchList, hnot]
  · obtain ⟨w, hw⟩ := adapter_deliver_returned ad (env b.engine.nextId)
    refine ⟨w, ?_⟩
    simp [LoguruBackend.reset, LoguruBackend.add_sink, Engine.removeAll, Engine.add,
      LoguruBackend.logAt, dispatchList, hw]

/-- C2 witness: with a fresh backend, one stream sink added at level 30
after reset, a log call at level 20 delivers to no destination. -/
theorem C2_threshold_dispatch_witness :
    (((LoguruBackend.mk ⟨3, []⟩ []).reset.add_sink .stream 30).1.logAt
      (fun _ => .ok) 20) = .ok [] :=
  (C2_threshold_dispatch (LoguruBackend.mk ⟨3, []⟩ []) .stream (fun _ => .ok) 30 20).2.1
    (by decide)

/-- C7 counterexample: removing an unknown handle is not a silent no-op;
on a backend with no registered sinks, remove_sink 5 raises the
ValueError of the engine removal instead of returning normally. -/
theorem C7_remove_unknown_counterexample :
    (LoguruBackend.mk ⟨1, []⟩ []).remove_sink 5
      = .error "ValueError: there is no existing handler with this id" := rfl

/-- C7 amended: remove_sink on a registered handle deregisters exactly
that sink (and drops the handle from the tracked id list when present);
on an unknown handle the engine removal raises ValueError, which
propagates out of remove_sink rather than being a silent no-op. -/
theorem C7_remove_sink_amended (b : LoguruBackend) (h : Nat) :
    (b.engine.sinks.any (fun r => r.id = h) = true →
      b.remove_sink h
        = .ok ⟨⟨b.engine.nextId, b.engine.sinks.filter (fun r => r.id ≠ h)⟩,
            if b.sinkIds.contains h then b.sinkIds.erase h else b.sinkIds⟩) ∧
    (b.engine.sinks.any (fun r => r.id = h) = false →
      b.remove_sink h = .error "ValueError: there is no existing handler with this id") := by
  constructor
  · intro hreg
    simp [LoguruBackend.remove_sink, Engine.removeId, hreg]
  · intro hnone
    simp [LoguruBackend.remove_sink, Engine.removeId, hnone]

/-- C7 witness: on a backend holding one registered stream sink with
handle 1, remove_sink 1 returns normally with that sink deregistered and
the tracked id list emptied. -/
theorem C7_remove_sink_amended_witness :
    (LoguruBackend.mk ⟨2, [⟨1, 40, .stream⟩]⟩ [1]).remove_sink 1
      = .ok ⟨⟨2, []⟩, []⟩ :=
  (C7_remove_sink_amended (LoguruBackend.mk ⟨2, [⟨1, 40, .stream⟩]⟩ [1]) 1).1 (by decide)

/-- The injected status list has one entry per event. -/
theorem preambleStatusesFrom_length (st : String) (levels : List Nat) :
    (preambleStatusesFrom st levels).length = levels.length := by
  induction levels generalizing st with
  | nil => rfl
  | cons l rest ih => simp [preambleStatusesFrom, ih]

/-- The failed status is absorbing: every later injected status stays
failed whatever the later levels are. -/
theorem preambleStatusesFrom_failed (levels : List Nat) (j : Nat) (hj : j < levels.length) :
    (preambleStatusesFrom "failed" levels).getD j "" = "failed" := by
  induction levels generalizing j with
  | nil => simp at hj
  | cons l rest ih =>
    have hstep : preambleStep "failed" l = "failed" := by
      unfold preambleStep
      split <;> rfl
    cases j with
    | zero => simp [preambleStatusesFrom, hstep]
    | succ n =>
      simp only [preambleStatusesFrom, hstep, List.getD_cons_succ]
      exact ih n (by simpa using hj)

/-- While every event so far stays below the failure threshold, the
injected status is still the starting status of the session. -/
theorem preambleStatusesFrom_below (st : String) (levels : List Nat) (j : Nat)
    (hj : j < levels.length)
    (hlow : ∀ m, m ≤ j → levels.getD m 0 < errorLevelNo) :
    (preambleStatusesFrom st levels).getD j "" = st := by
  induction levels generalizing st j with
  | nil => simp at hj
  | cons l rest ih =>
    have hl : l < errorLevelNo := by simpa using hlow 0 (Nat.zero_le j)
    have hstep : preambleStep st l = st := by
      unfold preambleStep
      rw [if_neg (by omega)]
    cases j with
    | zero => simp [preambleStatusesFrom, hstep]
    | succ n =>
      simp only [preambleStatusesFrom, hstep, List.getD_cons_succ]
      exact ih st n (by simpa using hj)
        (fun m hm => by simpa using hlow (m + 1) (by omega))

/-- Once an event at or above the threshold occurs at position i, every
injected status from position i on is failed, whatever the session
status was before. -/
theorem preambleStatusesFrom_after_failure (levels : List Nat) (st : String) (i j : Nat)
    (hij : i ≤ j) (hj : j < levels.length) (hfail : errorLevelNo ≤ levels.getD i 0) :
    (preambleStatusesFrom st levels).getD j "" = "failed" := by
  induction levels generalizing st i j with
  | nil => simp at hj
  | cons l rest ih =>
    cases i with
    | zero =>
      have hl : errorLevelNo ≤ l := by simpa using hfail
      have hstep : preambleStep st l = "failed" := by
        unfold preambleStep
        rw [if_pos hl]
      cases j with
      | zero => simp [preambleStatusesFrom, hstep]
      | succ n =>
        simp only [preambleStatusesFrom, hstep, List.getD_cons_succ]
        exact preambleStatusesFrom_failed rest n (by simpa using hj)
    | succ i0 =>
      cases j with
      | zero => omega
      | succ n =>
        simp only [preambleStatusesFrom, List.getD_cons_succ]
        exact ih (preambleStep st l) i0 n (by omega) (by simpa using hj)
          (by simpa using hfail)

/-- C3: the session status injected by the preamble patcher starts as
succeeded and is monotone; an event at or above the failure threshold
(logging.ERROR) makes the status injected into that event and into every
later event of the session failed, even when the later events are below
the threshold, while a session whose events all stay below the threshold
keeps injecting succeeded. -/
theorem C3_preamble_status_monotone (levels : List Nat) (i j : Nat) :
    (i ≤ j → j < levels.length → errorLevelNo ≤ levels.getD i 0 →
      (preambleStatuses levels).getD j "" = "failed") ∧
    (j < levels.length → (∀ m, m ≤ j → levels.getD m 0 < errorLevelNo) →
      (preambleStatuses levels).getD j "" = "succeeded") := by
  constructor
  · intro hij hj hfail
    exact preambleStatusesFrom_after_failure levels "succeeded" i j hij hj hfail
  · intro hj hlow
    exact preambleStatusesFrom_below "succeeded" levels j hj hlow

/-- C3 witness: in the session INFO, ERROR, DEBUG the status injected
into the trailing DEBUG event is failed, while in the session INFO,
DEBUG every injected status through position 1 is succeeded. -/
theorem C3_preamble_status_monotone_witness :
    (preambleStatuses [20, 40, 10]).getD 2 "" = "failed" ∧
    (preambleStatuses [20, 10]).getD 1 "" = "succeeded" :=
  ⟨(C3_preamble_status_monotone [20, 40, 10] 1 2).1 (by decide) (by decide) (by decide),
   (C3_preamble_status_monotone [20, 10] 0 1).2 (by decide)
     (fun m hm => by interval_cases m <;> decide)⟩

/-- Flush always leaves the pending buffer empty, on success and on
failure alike. -/
theorem flush_buffer_empty (h : BufferedSMTP) (send : SendOutcome) :
    (h.flush send).state.buffer = [] := by
  unfold BufferedSMTP.flush
  cases hb : h.buffer with
  | nil => simp [hb]
  | cons first rest => cases send <;> simp

/-- C5: after any flush call the pending buffer is empty, whether the
digest send succeeded or raised; a raising send delivers no digest and
reports the individual failure of every record that was buffered, then
still clears the buffer. -/
theorem C5_flush_clears_buffer (h : BufferedSMTP) (send : SendOutcome) (e : String) :
    (h.flush send).state.buffer = [] ∧
    (h.flush (.raises e)).digest = none ∧
    (h.flush (.raises e)).reported = h.buffer := by
  refine ⟨flush_buffer_empty h send, ?_, ?_⟩ <;>
    · unfold BufferedSMTP.flush
      cases hb : h.buffer with
      | nil => simp
      | cons first rest => simp

/-- The subject record chosen by flush is the last buffered record. -/
theorem lastRec_eq_getLast? (first : LogRecord) (rest : List LogRecord) :
    (first :: rest).getLast? = some (lastRec first rest) := by
  induction rest generalizing first with
  | nil => rfl
  | cons b m ih => rw [List.getLast?_cons_cons, ih]; rfl

/-- While the buffer stays strictly below capacity, emits only append:
no flush is triggered, no digest is sent, nothing is reported. -/
theorem runEmits_no_flush (rs : List LogRecord) (h : BufferedSMTP)
    (hlt : h.buffer.length + rs.length < h.capacity) :
    runEmits h (rs.map (fun r => (r, SendOutcome.ok)))
      = ⟨{ h with buffer := h.buffer ++ rs }, [], [], 0⟩ := by
  induction rs generalizing h with
  | nil => simp [runEmits]
  | cons r rest ih =>
    have hsf : ({ h with buffer := h.buffer ++ [r] } : BufferedSMTP).shouldFlush = false := by
      simp only [BufferedSMTP.shouldFlush, List.length_append, List.length_cons,
        List.length_nil, decide_eq_false_iff_not]
      simp only [List.length_cons] at hlt
      omega
    have hrec := ih { h with buffer := h.buffer ++ [r] } (by
      simp only [List.length_append, List.length_cons, List.length_nil]
      simp only [List.length_cons] at hlt
      omega)
    simp only [List.map_cons, runEmits, BufferedSMTP.emit, hsf, if_false]
    simp [hrec, List.append_assoc]

/-- Emit runs compose over list concatenation. -/
theorem runEmits_append (h : BufferedSMTP) (xs ys : List (LogRecord × SendOutcome)) :
    runEmits h (xs ++ ys)
      = ⟨(runEmits (runEmits h xs).state ys).state,
         (runEmits h xs).digests ++ (runEmits (runEmits h xs).state ys).digests,
         (runEmits h xs).reported ++ (runEmits (runEmits h xs).state ys).reported,
         (runEmits h xs).flushCalls + (runEmits (runEmits h xs).state ys).flushCalls⟩ := by
  induction xs generalizing h with
  | nil => simp [runEmits]
  | cons p rest ih =>
    obtain ⟨r, send⟩ := p
    simp only [List.cons_append, runEmits]
    simp [ih, List.append_assoc, Nat.add_assoc]

/-- The last buffered record after an append of one record is that
record. -/
theorem lastRec_append_last (first : LogRecord) (m : List LogRecord) (x : LogRecord) :
    lastRec first (m ++ [x]) = x := by
  induction m generalizing first with
  | nil => rfl
  | cons b m2 ih => simpa [lastRec] using ih b

/-- An emit that fills the buffer up to capacity flushes: one digest is
sent, its subject record is the record just appended (the last buffered
record), its body holds the whole buffer, and the buffer is cleared. -/
theorem emit_at_capacity (N flvl : Nat) (buf : List LogRecord) (r : LogRecord)
    (hcap : N ≤ buf.length + 1) :
    (BufferedSMTP.mk N flvl buf).emit r SendOutcome.ok
      = ⟨⟨N, flvl, []⟩, some ⟨r, buf ++ [r]⟩, [], true⟩ := by
  have hsf : (BufferedSMTP.mk N flvl (buf ++ [r])).shouldFlush = true := by
    simp only [BufferedSMTP.shouldFlush, List.length_append, List.length_cons,
      List.length_nil, decide_eq_true_eq]
    omega
  cases buf with
  | nil =>
    simp only [BufferedSMTP.emit, List.nil_append] at hsf ⊢
    simp [hsf, BufferedSMTP.flush, lastRec]
  | cons b0 btail =>
    simp only [BufferedSMTP.emit, List.cons_append] at hsf ⊢
    simp [hsf, BufferedSMTP.flush, lastRec_append_last]

/-- C4: with capacity N and an empty buffer, emitting exactly N records
triggers exactly one flush, which delivers exactly one digest whose
subject record is the last buffered record and whose body holds all N
records; emitting N-1 records triggers no flush and delivers nothing;
and close always invokes flush, so that a nonempty buffer still below
capacity is delivered as a digest on close. -/
theorem C4_buffered_capacity_flush (N flvl : Nat) (rs : List LogRecord)
    (h : BufferedSMTP) (send : SendOutcome) :
    (rs.length = N → 1 ≤ N →
      ∃ last, rs.getLast? = some last ∧
        runEmits ⟨N, flvl, []⟩ (rs.map (fun r => (r, SendOutcome.ok)))
          = ⟨⟨N, flvl, []⟩, [⟨last, rs⟩], [], 1⟩) ∧
    (rs.length + 1 = N →
      runEmits ⟨N, flvl, []⟩ (rs.map (fun r => (r, SendOutcome.ok)))
        = ⟨⟨N, flvl, rs⟩, [], [], 0⟩) ∧
    (h.close send = h.flush send) ∧
    (h.buffer.length < h.capacity → h.buffer ≠ [] →
      ∃ last, h.buffer.getLast? = some last ∧
        h.close .ok = ⟨⟨h.capacity, h.flushLevel, []⟩, some ⟨last, h.buffer⟩, []⟩) := by
  refine ⟨?_, ?_, rfl, ?_⟩
  · intro hlen hN
    have hne : rs ≠ [] := by
      intro hnil
      rw [hnil] at hlen
      simp at hlen
      omega
    obtain ⟨last, hlast⟩ : ∃ x, rs.getLast? = some x :=
      ⟨rs.getLast hne, List.getLast?_eq_getLast_of_ne_nil hne⟩
    have hsplit : rs.dropLast ++ [last] = rs := List.dropLast_append_getLast? last hlast
    refine ⟨last, hlast, ?_⟩
    have hmap : rs.map (fun r => (r, SendOutcome.ok))
        = (rs.dropLast.map (fun r => (r, SendOutcome.ok))) ++ [(last, SendOutcome.ok)] := by
      conv_lhs => rw [← hsplit]
      simp
    have hinit : runEmits ⟨N, flvl, []⟩ (rs.dropLast.map (fun r => (r, SendOutcome.ok)))
        = ⟨⟨N, flvl, rs.dropLast⟩, [], [], 0⟩ := by
      have hlt : ([] : List LogRecord).length + rs.dropLast.length < N := by
        simp only [List.length_nil, List.length_dropLast, hlen]
        omega
      simpa using runEmits_no_flush rs.dropLast ⟨N, flvl, []⟩ hlt
    have hemit := emit_at_capacity N flvl rs.dropLast last (by
      have hdl : rs.dropLast.length = N - 1 := by rw [List.length_dropLast, hlen]
      omega)
    rw [hmap, runEmits_append, hinit]
    simp only [runEmits, hemit, hsplit]
    simp
  · intro hlen
    have hlt : ([] : List LogRecord).length + rs.length < N := by
      simp only [List.length_nil]
      omega
    simpa using runEmits_no_flush rs ⟨N, flvl, []⟩ hlt
  · intro _ hne
    cases hb : h.buffer with
    | nil => exact absurd hb hne
    | cons first restb =>
      refine ⟨lastRec first restb, lastRec_eq_getLast? first restb, ?_⟩
      simp only [BufferedSMTP.close, BufferedSMTP.flush, hb]

/-- C4 witness: with capacity 2, emitting two records flushes once into
one digest whose subject is the second record; and a handler with one
buffered record and capacity 3 still delivers that record as a digest on
close. -/
theorem C4_buffered_capacity_flush_witness :
    (∃ last, ([⟨20, "a"⟩, ⟨30, "b"⟩] : List LogRecord).getLast? = some last ∧
      runEmits ⟨2, 40, []⟩
          (([⟨20, "a"⟩, ⟨30, "b"⟩] : List LogRecord).map (fun r => (r, SendOutcome.ok)))
        = ⟨⟨2, 40, []⟩, [⟨last, [⟨20, "a"⟩, ⟨30, "b"⟩]⟩], [], 1⟩) ∧
    (∃ last, ([⟨20, "a"⟩] : List LogRecord).getLast? = some last ∧
      (BufferedSMTP.mk 3 40 [⟨20, "a"⟩]).close .ok
        = ⟨⟨3, 40, []⟩, some ⟨last, [⟨20, "a"⟩]⟩, []⟩) :=
  ⟨(C4_buffered_capacity_flush 2 40 [⟨20, "a"⟩, ⟨30, "b"⟩] ⟨3, 40, [⟨20, "a"⟩]⟩ .ok).1
      rfl (by decide),
   (C4_buffered_capacity_flush 2 40 [⟨20, "a"⟩, ⟨30, "b"⟩] ⟨3, 40, [⟨20, "a"⟩]⟩ .ok).2.2.2
      (by decide) (by decide)⟩

/-- C6: the web patcher address enrichment is a total function of the
resolver outcomes, so no exception passes the patcher boundary; an
address resolver returning the empty string injects the empty string
(not an error value and not a raw address); a reverse dns lookup that
raises one of the caught socket errors (the OSError family, including
timeouts) injects the raw address as fallback; any other exception
anywhere in the resolution (a raising address resolver, or a reverse
lookup raising outside the OSError family) injects the empty string. -/
theorem C6_web_patcher_resolution (dns : String → PyResult String) (raw : String)
    (e : PyExcKind) :
    (webPatcherIp (.ok "") dns = "") ∧
    (raw ≠ "" → dns raw = .error .osError → webPatcherIp (.ok raw) dns = raw) ∧
    (raw ≠ "" → dns raw = .error .otherExc → webPatcherIp (.ok raw) dns = "") ∧
    (webPatcherIp (.error e) dns = "") := by
  refine ⟨rfl, ?_, ?_, rfl⟩
  · intro hraw hdns
    simp [webPatcherIp, resolve_ip, hraw, hdns]
  · intro hraw hdns
    simp [webPatcherIp, resolve_ip, hraw, hdns]

/-- C6 witness: a nonempty address whose reverse lookup raises a socket
error resolves to the raw address. -/
theorem C6_web_patcher_resolution_witness :
    webPatcherIp (.ok "10.1.2.3") (fun _ => .error .osError) = "10.1.2.3" :=
  (C6_web_patcher_resolution (fun _ => .error .osError) "10.1.2.3" .osError).2.1
    (by decide) rfl

/-- C8: the bridge maps a legacy severity name known to the engine to
the engine severity of the same name, falls back to the raw numeric
level when the engine does not recognise the name, and in both cases
makes exactly one engine log call carrying the legacy logger name as
bound context and the record exception info; a named logger configured
by the bridge has exactly one intercept handler, propagation disabled,
and its threshold at DEBUG so the engine sinks do the level filtering. -/
theorem C8_legacy_bridge (r : StdRecord) (lg : StdLoggerState) :
    ((interceptEmit r).length = 1) ∧
    (∀ ev ∈ interceptEmit r, ev.loggerName = r.name ∧ ev.msg = r.msg ∧
      ev.excInfo = r.excInfo) ∧
    ((levelNo? r.levelname).isSome →
      interceptEmit r = [⟨.byName r.levelname, r.msg, r.name, r.excInfo⟩]) ∧
    ((levelNo? r.levelname) = none →
      interceptEmit r = [⟨.byNo r.levelno, r.msg, r.name, r.excInfo⟩]) ∧
    ((interceptStdlibNamed lg).interceptHandlerCount = 1 ∧
      (interceptStdlibNamed lg).propagate = false ∧
      (interceptStdlibNamed lg).levelno = 10) := by
  refine ⟨?_, ?_, ?_, ?_, rfl, rfl, rfl⟩
  · cases hl : levelNo? r.levelname <;> simp [interceptEmit, hl]
  · intro ev hev
    cases hl : levelNo? r.levelname <;>
      · simp only [interceptEmit, hl] at hev
        simp only [List.mem_singleton] at hev
        subst hev
        exact ⟨rfl, rfl, rfl⟩
  · intro hsome
    obtain ⟨n, hn⟩ := Option.isSome_iff_exists.mp hsome
    simp [interceptEmit, hn]
  · intro hnone
    simp [interceptEmit, hnone]

/-- C8 witness: a record with the known severity name INFO is forwarded
as exactly one event at the engine severity named INFO, and a record
with an unknown severity name is forwarded by its numeric level. -/
theorem C8_legacy_bridge_witness :
    interceptEmit ⟨"web", "INFO", 20, "hello", false⟩
      = [⟨.byName "INFO", "hello", "web", false⟩] ∧
    interceptEmit ⟨"web", "CUSTOM", 42, "hello", true⟩
      = [⟨.byNo 42, "hello", "web", true⟩] :=
  ⟨(C8_legacy_bridge ⟨"web", "INFO", 20, "hello", false⟩ ⟨0, true, 0⟩).2.2.1 (by decide),
   (C8_legacy_bridge ⟨"web", "CUSTOM", 42, "hello", true⟩ ⟨0, true, 0⟩).2.2.2.1 (by decide)⟩

/-- Dict lookup after one assignment: the assigned key reads the new
value, every other key is unaffected. -/
theorem dictGet?_dictInsert (d : Ctx) (k v key : String) :
    dictGet? (dictInsert d k v) key = if key = k then some v else dictGet? d key := by
  induction d with
  | nil =>
    by_cases hk : key = k
    · subst hk
      simp [dictInsert, dictGet?]
    · have hk2 : ¬ k = key := fun h => hk h.symm
      simp [dictInsert, dictGet?, hk, hk2]
  | cons p rest ih =>
    by_cases hp : p.1 = k
    · by_cases hk : key = k
      · subst hk
        simp [dictInsert, dictGet?, hp]
      · have hk2 : ¬ k = key := fun h => hk h.symm
        have hpk : ¬ p.1 = key := fun h => hk2 (hp.symm.trans h)
        simp [dictInsert, dictGet?, hp, hk, hk2, hpk]
    · by_cases hk : key = k
      · subst hk
        simp [dictInsert, dictGet?, hp, ih]
      · by_cases hpkey : p.1 = key
        · simp [dictInsert, dictGet?, hp, hk, hpkey]
        · simp [dictInsert, dictGet?, hp, hk, hpkey, ih]

/-- Dict lookup after a double-splat merge with unique right-side keys:
a key of the right dict reads the right value, any other key reads the
left dict. -/
theorem dictGet?_dictMerge (a b : Ctx) (key : String) (hnd : (ctxKeys b).Nodup) :
    dictGet? (dictMerge a b) key
      = if key ∈ ctxKeys b then dictGet? b key else dictGet? a key := by
  induction b generalizing a with
  | nil => simp [dictMerge, ctxKeys]
  | cons p rest ih =>
    obtain ⟨k, v⟩ := p
    obtain ⟨hnd1, hnd2⟩ : k ∉ ctxKeys rest ∧ (ctxKeys rest).Nodup := List.nodup_cons.mp hnd
    have hmerge : dictMerge a ((k, v) :: rest) = dictMerge (dictInsert a k v) rest := rfl
    rw [hmerge, ih (dictInsert a k v) hnd2]
    by_cases hmem : key ∈ ctxKeys rest
    · have hmem2 : key ∈ List.map Prod.fst rest := hmem
      have hne : ¬ key = k := fun h => hnd1 (h ▸ hmem)
      have hne2 : ¬ k = key := fun h => hne (Eq.symm h)
      simp [ctxKeys, hmem2, dictGet?, hne, hne2]
    · have hmem2 : ¬ key ∈ List.map Prod.fst rest := hmem
      rw [dictGet?_dictInsert]
      by_cases hkey : key = k
      · subst hkey
        simp [ctxKeys, hmem2, dictGet?]
      · have hne2 : ¬ k = key := fun h => hkey (Eq.symm h)
        simp [ctxKeys, hmem2, hkey, hne2, dictGet?]

/-- A key property satisfied by every item of a dict survives one
assignment whose key satisfies it. -/
theorem dictInsert_forall (P : String → Prop) (d : Ctx) (k v : String)
    (hd : ∀ p ∈ d, P p.1) (hk : P k) :
    ∀ p ∈ dictInsert d k v, P p.1 := by
  induction d with
  | nil =>
    intro p hp
    simp only [dictInsert, List.mem_singleton] at hp
    subst hp
    exact hk
  | cons q rest ih =>
    intro p hp
    by_cases hq : q.1 = k
    · simp only [dictInsert, hq, if_true, List.mem_cons] at hp
      rcases hp with rfl | hp
      · exact hk
      · exact hd p (List.mem_cons_of_mem q hp)
    · simp only [dictInsert, hq, if_false, List.mem_cons] at hp
      rcases hp with rfl | hp
      · exact hd _ (List.mem_cons_self _ _)
      · exact ih (fun x hx => hd x (List.mem_cons_of_mem q hx)) p hp

/-- A key property satisfied by every item of both dicts survives a
double-splat merge. -/
theorem dictMerge_forall (P : String → Prop) (a b : Ctx)
    (ha : ∀ p ∈ a, P p.1) (hb : ∀ p ∈ b, P p.1) :
    ∀ p ∈ dictMerge a b, P p.1 := by
  induction b generalizing a with
  | nil => exact ha
  | cons q rest ih =>
    have hq : P q.1 := hb q (List.mem_cons_self q rest)
    have hrest : ∀ p ∈ rest, P p.1 := fun p hp => hb p (List.mem_cons_of_mem q hp)
    exact ih (dictInsert a q.1 q.2) (dictInsert_forall P a q.1 q.2 ha hq) hrest

/-- C9 counterexample: bind does not return a new Logger for every
keyword mapping; binding the context key named name makes the
constructor call Logger(name=self._name, **new_context) raise TypeError,
so no Logger is produced. -/
theorem C9_bind_name_key_counterexample :
    (Logger.mk (some "job") []).bind [("name", "x")]
      = .error "TypeError: got multiple values for argument" := rfl

/-- C9 amended: for every keyword mapping whose keys avoid the
constructor parameter names (name and self, which make the underlying
python calls raise TypeError) and are unique, bind returns a new Logger
whose name is the original name and whose context is the original
context merged with the mapping, mapping keys taking precedence and
unmentioned keys reading their original values; the original logger is a
value the call never mutates. -/
theorem C9_bind_merges_context (lg : Logger) (k : Ctx)
    (hC : ∀ p ∈ lg.context, p.1 ≠ "name" ∧ p.1 ≠ "self")
    (hk : ∀ p ∈ k, p.1 ≠ "name" ∧ p.1 ≠ "self")
    (hnd : (ctxKeys k).Nodup) :
    ∃ lg2, lg.bind k = .ok lg2 ∧ lg2.name = lg.name ∧
      lg2.context = dictMerge lg.context k ∧
      (∀ key, key ∈ ctxKeys k → dictGet? lg2.context key = dictGet? k key) ∧
      (∀ key, key ∉ ctxKeys k → dictGet? lg2.context key = dictGet? lg.context key) := by
  have hmerge : ∀ p ∈ dictMerge lg.context k, p.1 ≠ "name" ∧ p.1 ≠ "self" :=
    dictMerge_forall (fun s => s ≠ "name" ∧ s ≠ "self") lg.context k hC hk
  have hself : k.any (fun p => p.1 = "self") = false := by
    simp only [List.any_eq_false, decide_eq_true_eq]
    exact fun p hp => (hk p hp).2
  have hinit : (dictMerge lg.context k).any (fun p => p.1 = "name" ∨ p.1 = "self")
      = false := by
    simp only [List.any_eq_false, decide_eq_true_eq]
    intro p hp
    push_neg
    exact hmerge p hp
  refine ⟨⟨lg.name, dictMerge lg.context k⟩, ?_, rfl, rfl, ?_, ?_⟩
  · unfold Logger.bind loggerInit
    rw [hself, hinit]
    simp
  · intro key hkey
    simp [dictGet?_dictMerge lg.context k key hnd, hkey]
  · intro key hkey
    simp [dictGet?_dictMerge lg.context k key hnd, hkey]

/-- C9 witness: binding ip and user onto a logger whose context already
holds user yields a new logger with the same name, the updated user, the
appended ip, and the untouched host entry. -/
theorem C9_bind_merges_context_witness :
    ∃ lg2, (Logger.mk (some "job") [("user", "john"), ("host", "h1")]).bind
        [("ip", "10.0.0.1"), ("user", "jane")] = .ok lg2 ∧
      lg2.name = (Logger.mk (some "job") [("user", "john"), ("host", "h1")]).name ∧
      lg2.context = dictMerge [("user", "john"), ("host", "h1")]
        [("ip", "10.0.0.1"), ("user", "jane")] ∧
      (∀ key, key ∈ ctxKeys [("ip", "10.0.0.1"), ("user", "jane")] →
        dictGet? lg2.context key = dictGet? [("ip", "10.0.0.1"), ("user", "jane")] key) ∧
      (∀ key, key ∉ ctxKeys [("ip", "10.0.0.1"), ("user", "jane")] →
        dictGet? lg2.context key
          = dictGet? [("user", "john"), ("host", "h1")] key) :=
  C9_bind_merges_context (Logger.mk (some "job") [("user", "john"), ("host", "h1")])
    [("ip", "10.0.0.1"), ("user", "jane")]
    (by decide) (by decide) (by decide)

/-- C10: the facade exception operation performs exactly the dispatch of
an ERROR-level log of the same message, args and residual keyword args
with exception info enabled: it uses no distinct severity of its own and
differs from the error operation only in the exception-info flag. -/
theorem C10_exception_refines_error (lg : Logger) (msg : String) (args : List String)
    (kwargs : Ctx) :
    lg.exceptionDispatch msg args kwargs = errorLevelLogWithExcInfoSpec lg msg args kwargs ∧
    lg.exceptionDispatch msg args kwargs
      = { lg.errorDispatch msg args kwargs with excInfo := true } ∧
    (lg.exceptionDispatch msg args kwargs).level = "ERROR" ∧
    (lg.exceptionDispatch msg args kwargs).level = (lg.errorDispatch msg args kwargs).level :=
  ⟨rfl, rfl, rfl, rfl⟩

end LibbLog
